import Mathlib

/-
Verification of the tree-materialization and size-aggregation engine of the
fliesize-explorer extension (src/fileExplorer.ts).

The embedding is shallow: the on-disk filesystem, the platform Unicode
normalizer and the external size libraries are oracles bundled in an `FS`
record, and each source function is translated into a Lean function over
those oracles.  JavaScript `undefined`/`NaN` values flowing through numeric
fields are modelled as `Option` `none`; a rejected promise or a thrown
exception is an `Except.error`.
-/

deriving instance DecidableEq for Except

namespace FsExplorer

/-- File type tags, mirroring vscode.FileType (Unknown, File, Directory, SymbolicLink). -/
inductive FileType
| Unknown
| File
| Directory
| SymbolicLink
deriving DecidableEq

/-- POSIX file-kind mask, as used by Node fs.Stats mode tests. -/
def S_IFMT : Nat := 61440

/-- POSIX regular-file kind bits. -/
def S_IFREG : Nat := 32768

/-- POSIX directory kind bits. -/
def S_IFDIR : Nat := 16384

/-- POSIX symbolic-link kind bits. -/
def S_IFLNK : Nat := 40960

/-- Model of a Node fs.Stats record.  A stats object obtained from the OS has
every field populated (`some`); the degenerate `new fs.Stats()` built by the
catch branch of the stat wrapper has every field `undefined`, modelled as
`none`.  Timestamps are the epoch-millisecond numbers reported by
ctime.getTime() and mtime.getTime(); `none` stands for NaN. -/
structure FsStats where
  mode : Option Nat
  size : Option Nat
  ctimeMs : Option Int
  mtimeMs : Option Int
deriving DecidableEq

/-- Node fs.Stats.isFile(): tests the kind bits of the mode word.  An
undefined mode coerces to 0 under the JavaScript bitwise-and, hence getD 0. -/
def FsStats.isFile (s : FsStats) : Bool := (s.mode.getD 0) &&& S_IFMT == S_IFREG

/-- Node fs.Stats.isDirectory(). -/
def FsStats.isDirectory (s : FsStats) : Bool := (s.mode.getD 0) &&& S_IFMT == S_IFDIR

/-- Node fs.Stats.isSymbolicLink(). -/
def FsStats.isSymbolicLink (s : FsStats) : Bool := (s.mode.getD 0) &&& S_IFMT == S_IFLNK

/-- The empty stats record produced by new fs.Stats(): every field undefined. -/
def emptyStats : FsStats := { mode := none, size := none, ctimeMs := none, mtimeMs := none }

/-- Outcome of one fast-folder-size invocation: either the library calls the
callback (with `none` for the result when it reports an error, since the
source resolves the raw result and ignores the error argument), or the call
itself throws synchronously. -/
inductive FFSOutcome
| callback (result : Option Nat)
| syncThrow
deriving DecidableEq

/-- Oracle bundle for the platform and the real filesystem, one field per
primitive the source calls.  `readdirRaw` yields the raw child list or an OS
error code; `statSync` is `none` when fs.statSync throws; `gzipFileSync` is
`none` when gzip-size fileSync throws; `nfc` is the Unicode NFC normalizer
applied on darwin. -/
structure FS where
  platform : String
  nfc : String → String
  readdirRaw : String → Except String (List String)
  statSync : String → Option FsStats
  gzipFileSync : String → Option Nat
  folderSize : String → FFSOutcome

/-- The source normalizeNFC on a single name: identity off darwin. -/
def normalizeNFCStr (fs : FS) (s : String) : String :=
  if fs.platform == "darwin" then fs.nfc s else s

/-- The source normalizeNFC on a listing: identity off darwin. -/
def normalizeNFCList (fs : FS) (l : List String) : List String :=
  if fs.platform == "darwin" then l.map fs.nfc else l

/-- path.join of a base path and one child name, modelled as segment
concatenation (no dot-segment resolution, as in the source). -/
def joinPath (base name : String) : String := base ++ "/" ++ name

/-- Errors of the vscode.FileSystemError taxonomy that massageError maps onto,
plus `raw` for an error it passes through unmapped. -/
inductive MassagedError
| FileNotFound
| FileIsADirectory
| FileExists
| NoPermissions
| raw (code : String)
deriving DecidableEq

/-- The source massageError: maps an OS error code onto the vscode error
taxonomy.  Note the EACCESS branch tests a misspelling of the real EACCES
code. -/
def massageError (code : String) : MassagedError :=
  if code == "ENOENT" then MassagedError.FileNotFound
  else if code == "EISDIR" then MassagedError.FileIsADirectory
  else if code == "EEXIST" then MassagedError.FileExists
  else if code == "EPERM" || code == "EACCESS" || code == "EBUSY" then MassagedError.NoPermissions
  else MassagedError.raw code

/-- A cancellation token as seen by the source: one flag. -/
structure CancellationToken where
  isCancellationRequested : Bool
deriving DecidableEq

/-- The source checkCancellation: throws when the token is cancelled. -/
def checkCancellation (t : CancellationToken) : Except String Unit :=
  if t.isCancellationRequested then Except.error "Operation cancelled" else Except.ok ()

/-- The source readdir wrapper: rejects with the massaged error when the OS
listing fails, otherwise resolves the NFC-normalized child list. -/
def readdirP (fs : FS) (p : String) : Except MassagedError (List String) :=
  match fs.readdirRaw p with
  | Except.error code => Except.error (massageError code)
  | Except.ok children => Except.ok (normalizeNFCList fs children)

/-- The source stat wrapper: resolves the fs.statSync result, and resolves a
fresh empty Stats record instead of rejecting when statSync throws.  The
return type being total (no Except) is the never-raises behavior. -/
def statResolve (res : Option FsStats) : FsStats := res.getD emptyStats

/-- The FileStat adapter class: wraps an fs.Stats record. -/
structure FileStat where
  fsStat : FsStats
deriving DecidableEq

/-- FileStat.type: first matching kind test wins, Unknown when none holds. -/
def FileStat.type (s : FileStat) : FileType :=
  if s.fsStat.isFile then FileType.File
  else if s.fsStat.isDirectory then FileType.Directory
  else if s.fsStat.isSymbolicLink then FileType.SymbolicLink
  else FileType.Unknown

/-- FileStat.isFile getter. -/
def FileStat.isFile (s : FileStat) : Bool := s.fsStat.isFile

/-- FileStat.isDirectory getter. -/
def FileStat.isDirectory (s : FileStat) : Bool := s.fsStat.isDirectory

/-- FileStat.isSymbolicLink getter. -/
def FileStat.isSymbolicLink (s : FileStat) : Bool := s.fsStat.isSymbolicLink

/-- FileStat.size getter: the raw stats size, undefined on the empty record. -/
def FileStat.size (s : FileStat) : Option Nat := s.fsStat.size

/-- FileStat.ctime getter: ctime.getTime(), NaN (none) on the empty record. -/
def FileStat.ctime (s : FileStat) : Option Int := s.fsStat.ctimeMs

/-- FileStat.mtime getter: mtime.getTime(), NaN (none) on the empty record. -/
def FileStat.mtime (s : FileStat) : Option Int := s.fsStat.mtimeMs

/-- A tree Entry: a filesystem location (its uri, carried as the fsPath
string) plus a type tag. -/
structure Entry where
  uri : String
  type : FileType
deriving DecidableEq

/-- A configured workspace root: uri scheme plus fsPath. -/
structure WorkspaceFolder where
  scheme : String
  fsPath : String
deriving DecidableEq

/-- Strict lexicographic comparison of two character lists. -/
def charListLt : List Char → List Char → Bool
  | [], [] => false
  | [], _ :: _ => true
  | _ :: _, [] => false
  | a :: as, b :: bs => if a < b then true else if b < a then false else charListLt as bs

/-- Model of String.prototype.localeCompare on names: negative, zero or
positive as the first string is below, equal to or above the second.  The
locale collation is abstracted to the lexicographic linear order on strings;
the source relies only on the comparator contract. -/
def localeCompare (a b : String) : Int :=
  if charListLt a.data b.data then -1 else if charListLt b.data a.data then 1 else 0

/-- The root-level sort comparator of getChildren: equal types compare by
name via localeCompare, otherwise a Directory on the left sorts before and
any other left type sorts after. -/
def rootCompare (a b : String × FileType) : Int :=
  if a.2 = b.2 then localeCompare a.1 b.1
  else if a.2 = FileType.Directory then -1 else 1

/-- Stable insertion of one element under a JavaScript comparator: the
element lands before the first position whose resident compares greater. -/
def jsSortInsert (cmp : α → α → Int) (x : α) : List α → List α
  | [] => [x]
  | y :: ys => if cmp x y < 0 then x :: y :: ys else y :: jsSortInsert cmp x ys

/-- Model of Array.prototype.sort with a comparator: one conforming stable
comparison sort (left-to-right insertion sort).  ECMAScript fixes the result
only for a consistent comparator; when the comparator is inconsistent (as
the root comparator is on listings mixing distinct non-Directory types) the
order is implementation-defined and this model is just one possible engine
behavior, so theorems about the sorted output are stated only under
hypotheses making the comparator consistent on the listing — there the
sorted permutation is unique (any sorted permutation equals this one, which
is proved below from antisymmetry of the comparator order), hence every
conforming engine agrees with this model. -/
def jsSort (cmp : α → α → Int) (l : List α) : List α :=
  l.foldl (fun acc x => jsSortInsert cmp x acc) []

/-- Change event kinds republished by the watcher. -/
inductive FileChangeType
| Changed
| Created
| Deleted
deriving DecidableEq

/-- One republished change event: kind plus the affected path. -/
structure FileChangeEvent where
  type : FileChangeType
  uri : String
deriving DecidableEq

/-- Watch options as passed by the host: recursive flag and exclude globs. -/
structure WatchOptions where
  recursive : Bool
  excludes : List String
deriving DecidableEq

/-- A live watch subscription: the watched path, the recursive flag handed
to fs.watch, and the notification handler.  The handler takes the raw event
kind, the raw reported filename and the existence of the affected path at
processing time (the await of the exists re-check), and returns the list of
events fired for that one notification. -/
structure WatchSubscription where
  watchedPath : String
  recursive : Bool
  handler : String → String → Bool → List FileChangeEvent

/-- Body of the fs.watch callback in FileSystemProvider.watch: joins the
normalized filename onto the watched path, classifies the event (a raw
change kind becomes Changed, anything else becomes Created or Deleted by the
existence re-check at processing time) and fires exactly one event. -/
def watchHandler (fs : FS) (basePath : String) (event : String) (filename : String)
    (existsNow : Bool) : List FileChangeEvent :=
  let filepath := joinPath basePath (normalizeNFCStr fs filename)
  [{ type := if event == "change" then FileChangeType.Changed
             else if existsNow then FileChangeType.Created
             else FileChangeType.Deleted,
     uri := filepath }]

/-- FileSystemProvider.watch: starts an fs.watch on the uri with the
recursive option and installs the notification handler.  The excludes option
is never consulted (the source leaves a TODO there). -/
def FileSystemProvider.watch (fs : FS) (uriFsPath : String) (options : WatchOptions) :
    WatchSubscription :=
  { watchedPath := uriFsPath
    recursive := options.recursive
    handler := fun event filename existsNow => watchHandler fs uriFsPath event filename existsNow }

/-- FileSystemProvider._stat: stats a path through the never-rejecting stat
wrapper and wraps the record in FileStat. -/
def FileSystemProvider._stat (fs : FS) (p : String) : FileStat :=
  { fsStat := statResolve (fs.statSync p) }

/-- FileSystemProvider._readDirectory: lists the directory, then stats every
child in turn and pairs each child name with the resulting type.  A listing
failure rejects with the massaged error; a per-child stat failure cannot
reject (the stat wrapper is total) and yields the degenerate Unknown type. -/
def FileSystemProvider._readDirectory (fs : FS) (p : String) :
    Except MassagedError (List (String × FileType)) := do
  let children ← readdirP fs p
  return children.map (fun c => (c, (FileStat.type { fsStat := statResolve (fs.statSync (joinPath p c)) })))

/-- FileSystemProvider.getChildren.  With no workspace configured the result
is empty.  With a parent element, its listing is returned in listing order.
With no parent, the first file-scheme workspace folder (if any) is listed
and the listing is sorted with the root comparator before being turned into
entries. -/
def getChildren (ws : Option (List WorkspaceFolder)) (fs : FS) (element : Option Entry) :
    Except MassagedError (List Entry) :=
  match ws with
  | none => Except.ok []
  | some folders =>
    match element with
    | some el => do
        let children ← FileSystemProvider._readDirectory fs el.uri
        return children.map (fun p => { uri := joinPath el.uri p.1, type := p.2 })
    | none =>
      match (folders.filter (fun f => f.scheme == "file")).head? with
      | some wf => do
          let children ← FileSystemProvider._readDirectory fs wf.fsPath
          let sorted := jsSort rootCompare children
          return sorted.map (fun p => { uri := joinPath wf.fsPath p.1, type := p.2 })
      | none => Except.ok []

/-- FileSystemProvider._getGzipSize: the gzip-size estimate, or 0 when the
library throws (unreadable or non-regular file). -/
def FileSystemProvider._getGzipSize (fs : FS) (p : String) : Nat :=
  match fs.gzipFileSync p with
  | some n => n
  | none => 0

/-- FileSystemProvider._getDirSize: resolves whatever fast-folder-size
passes to its callback (undefined, i.e. none, when the library reports an
error), and resolves 0 only when the library call throws synchronously. -/
def FileSystemProvider._getDirSize (fs : FS) (p : String) : Option Nat :=
  match fs.folderSize p with
  | FFSOutcome.callback r => r
  | FFSOutcome.syncThrow => some 0

/-- Model of the filesize library rendering of a byte count.  The exact
human formatting is abstracted to a canonical numeric rendering. -/
def filesizeStr (n : Nat) : String := toString n ++ " B"

/-- Model of a filesize library call on a JavaScript number that may be
undefined: the library throws on a non-numeric argument. -/
def filesizeFn : Option Nat → Except String String
  | some n => Except.ok (filesizeStr n)
  | none => Except.error "Invalid number"

/-- An open-file style command binding on a tree item. -/
structure Command where
  command : String
  title : String
  arguments : List String
deriving DecidableEq

/-- vscode.TreeItemCollapsibleState. -/
inductive CollapsibleState
| None
| Collapsed
| Expanded
deriving DecidableEq

/-- The display descriptor built by getTreeItem. -/
structure TreeItem where
  resourceUri : String
  collapsibleState : CollapsibleState
  command : Option Command
  contextValue : Option String
  description : Option String
deriving DecidableEq

/-- FileSystemProvider.getTreeItem: builds the display descriptor.  The
collapsible state is Collapsed exactly for Directory entries.  A File entry
gets the open-file command carrying its uri, the file context value, and a
description rendering the stat size followed by the gzip estimate; a
Directory entry gets a description rendering the aggregate size and no
command.  The filesize renderings are evaluated left to right and a throw
(non-numeric argument) rejects the whole call, as in the source. -/
def getTreeItem (fs : FS) (element : Entry) : Except String TreeItem :=
  let collapsible := if element.type = FileType.Directory then CollapsibleState.Collapsed
                     else CollapsibleState.None
  if element.type = FileType.File then
    let sz := (FileSystemProvider._stat fs element.uri).size
    match filesizeFn sz, filesizeFn (some (FileSystemProvider._getGzipSize fs element.uri)) with
    | Except.error e, _ => Except.error e
    | _, Except.error e => Except.error e
    | Except.ok s1, Except.ok s2 =>
        Except.ok { resourceUri := element.uri
                    collapsibleState := collapsible
                    command := some { command := "fileExplorer.openFile", title := "Open File",
                                      arguments := [element.uri] }
                    contextValue := some "file"
                    description := some (" -  " ++ s1 ++ " - (" ++ s2 ++ ")") }
  else if element.type = FileType.Directory then
    match filesizeFn (FileSystemProvider._getDirSize fs element.uri) with
    | Except.error e => Except.error e
    | Except.ok s =>
        Except.ok { resourceUri := element.uri
                    collapsibleState := collapsible
                    command := none
                    contextValue := none
                    description := some (" - " ++ s) }
  else
    Except.ok { resourceUri := element.uri
                collapsibleState := collapsible
                command := none
                contextValue := none
                description := none }

/-- A listing entry is of an allowed type for the consistent-comparator
case: Directory, or the one fixed non-Directory type t of the listing.  On
such listings the root comparator is consistent, so the sort order is not
implementation-defined. -/
def typeOk (t : FileType) (p : String × FileType) : Prop :=
  p.2 = FileType.Directory ∨ p.2 = t

instance (t : FileType) (p : String × FileType) : Decidable (typeOk t p) :=
  inferInstanceAs (Decidable (_ ∨ _))

/-- The ordering claim C1 asserts between an earlier entry a and a later
entry b of the sorted root listing: a Directory never follows a
non-Directory, and two entries of the same group (both Directory or both
non-Directory) are in ascending name order. -/
def groupLe (a b : String × FileType) : Prop :=
  (b.2 = FileType.Directory → a.2 = FileType.Directory) ∧
  ((a.2 = FileType.Directory ↔ b.2 = FileType.Directory) → localeCompare a.1 b.1 ≤ 0)

/-- Boolean rendering of the ordering asserted by claim C1 between an
earlier entry a and a later entry b of a returned root listing: no
non-Directory precedes a Directory, and two entries of the same GROUP (both
Directory, or both non-Directory of any types) appear in ascending name
order, the entry uri standing for the name. -/
def c1ClaimPairB (a b : Entry) : Bool :=
  (!(b.type == FileType.Directory) || (a.type == FileType.Directory)) &&
  (!((a.type == FileType.Directory) == (b.type == FileType.Directory)) ||
    !(charListLt b.uri.data a.uri.data))

/-- Boolean pairwise check over a list. -/
def pairwiseB (r : α → α → Bool) : List α → Bool
  | [] => true
  | x :: xs => xs.all (r x) && pairwiseB r xs

/-- The ordering asserted by claim C1 over a whole returned root listing. -/
def c1ClaimOrderB (l : List Entry) : Bool := pairwiseB c1ClaimPairB l

/-- Modelled from the spec: the cancellable directory-size aggregation
described by claim C7 — the caller supplies a token, checkCancellation runs
at the start of the traversal, and a cancelled token aborts with the
cancellation error instead of yielding a size.  The source has no
token-accepting aggregation path; this definition exists only to compare
the claim against the code. -/
def directorySizeSpecModel (t : CancellationToken) (fs : FS) (p : String) :
    Except String (Option Nat) := do
  checkCancellation t
  return FileSystemProvider._getDirSize fs p

/-- Stats record of a regular file of the given size (mode 0o100644). -/
def fileStats (n : Nat) : FsStats :=
  { mode := some 33188, size := some n, ctimeMs := some 0, mtimeMs := some 0 }

/-- Stats record of a directory (mode 0o40755). -/
def dirStats : FsStats :=
  { mode := some 16877, size := some 4096, ctimeMs := some 0, mtimeMs := some 0 }

/-- Stats record of a symbolic link (mode 0o120777). -/
def linkStats : FsStats :=
  { mode := some 41471, size := some 7, ctimeMs := some 0, mtimeMs := some 0 }

/-- Concrete fixture: root /r holds files b.txt (5 bytes) and a.txt (7
bytes) and directory z; gzip estimates are 3 bytes; folder sizes are 100
bytes. -/
def fsW : FS :=
  { platform := "linux"
    nfc := id
    readdirRaw := fun p => if p == "/r" then Except.ok ["b.txt", "a.txt", "z"] else Except.error "ENOENT"
    statSync := fun p =>
      if p == "/r/b.txt" then some (fileStats 5)
      else if p == "/r/a.txt" then some (fileStats 7)
      else if p == "/r/z" then some dirStats
      else none
    gzipFileSync := fun _ => some 3
    folderSize := fun _ => FFSOutcome.callback (some 100) }

/-- Concrete fixture for the C1 counterexample: the root /r lists file b
before symbolic link a. -/
def fsMixed : FS :=
  { platform := "linux"
    nfc := id
    readdirRaw := fun p => if p == "/r" then Except.ok ["b", "a"] else Except.error "ENOENT"
    statSync := fun p =>
      if p == "/r/b" then some (fileStats 5)
      else if p == "/r/a" then some linkStats
      else none
    gzipFileSync := fun _ => some 3
    folderSize := fun _ => FFSOutcome.callback (some 100) }

/-- Concrete fixture where only /r/f stats, gzip estimation always throws
and folder sizing reports an error to its callback. -/
def fsFail : FS :=
  { platform := "linux"
    nfc := id
    readdirRaw := fun _ => Except.error "ENOENT"
    statSync := fun p => if p == "/r/f" then some (fileStats 5) else none
    gzipFileSync := fun _ => none
    folderSize := fun _ => FFSOutcome.callback none }

/-- Concrete fixture whose directory listing fails with the correctly
spelled OS permission-denied code. -/
def fsEacces : FS :=
  { platform := "linux"
    nfc := id
    readdirRaw := fun _ => Except.error "EACCES"
    statSync := fun _ => none
    gzipFileSync := fun _ => none
    folderSize := fun _ => FFSOutcome.callback none }

/-- Concrete fixture for per-child stat failure: /d lists g and f, and only
f can be statted. -/
def fsChild : FS :=
  { platform := "linux"
    nfc := id
    readdirRaw := fun p => if p == "/d" then Except.ok ["g", "f"] else Except.error "ENOENT"
    statSync := fun p => if p == "/d/f" then some (fileStats 5) else none
    gzipFileSync := fun _ => none
    folderSize := fun _ => FFSOutcome.callback none }

/-- Lexicographic comparison of character lists is transitive. -/
theorem charListLt_trans : ∀ (a b c : List Char),
    charListLt a b = true → charListLt b c = true → charListLt a c = true := by
  intro a
  induction a with
  | nil =>
    intro b c h1 h2
    cases b with
    | nil => simp [charListLt] at h1
    | cons y ys =>
      cases c with
      | nil => simp [charListLt] at h2
      | cons z zs => simp [charListLt]
  | cons x xs ih =>
    intro b c h1 h2
    cases b with
    | nil => simp [charListLt] at h1
    | cons y ys =>
      cases c with
      | nil => simp [charListLt] at h2
      | cons z zs =>
        simp only [charListLt] at h1 h2 ⊢
        by_cases hxy : x < y
        · by_cases hyz : y < z
          · simp [lt_trans hxy hyz]
          · by_cases hzy : z < y
            · simp [hyz, hzy] at h2
            · have hyz2 : y = z := le_antisymm (not_lt.mp hzy) (not_lt.mp hyz)
              subst hyz2
              simp [hxy]
        · by_cases hyx : y < x
          · simp [hxy, hyx] at h1
          · have hxy2 : x = y := le_antisymm (not_lt.mp hyx) (not_lt.mp hxy)
            subst hxy2
            simp [lt_irrefl] at h1
            by_cases hxz : x < z
            · simp [hxz]
            · by_cases hzx : z < x
              · simp [hxz, hzx] at h2
              · have hxz2 : x = z := le_antisymm (not_lt.mp hzx) (not_lt.mp hxz)
                subst hxz2
                simp [lt_irrefl] at h2 ⊢
                exact ih ys zs h1 h2

/-- Two character lists neither of which is lexicographically below the
other are equal. -/
theorem charListLt_eq_of_not : ∀ (a b : List Char),
    charListLt a b = false → charListLt b a = false → a = b := by
  intro a
  induction a with
  | nil =>
    intro b h1 h2
    cases b with
    | nil => rfl
    | cons y ys => simp [charListLt] at h1
  | cons x xs ih =>
    intro b h1 h2
    cases b with
    | nil => simp [charListLt] at h2
    | cons y ys =>
      simp only [charListLt] at h1 h2
      by_cases hxy : x < y
      · simp [hxy] at h1
      · by_cases hyx : y < x
        · simp [hxy, hyx] at h2
        · have hxy2 : x = y := le_antisymm (not_lt.mp hyx) (not_lt.mp hxy)
          subst hxy2
          simp [lt_irrefl] at h1 h2
          rw [ih ys h1 h2]

/-- Membership is preserved by the JavaScript-style insertion step. -/
theorem jsSortInsert_mem (cmp : α → α → Int) (x z : α) :
    ∀ l, z ∈ jsSortInsert cmp x l ↔ z = x ∨ z ∈ l := by
  intro l
  induction l with
  | nil => simp [jsSortInsert]
  | cons y ys ih =>
    simp only [jsSortInsert]
    split
    · simp [List.mem_cons]
    · simp only [List.mem_cons, ih]
      tauto

/-- The insertion step preserves pairwise R over lists of P-elements,
provided the comparator and R agree on P-elements: a passed-over element
relates to the inserted one, the inserted one relates to the element it
stops before, and that relation transfers over R to everything further
right. -/
theorem jsSortInsert_pairwise_mem {R : α → α → Prop} {cmp : α → α → Int} {P : α → Prop}
    (hpass : ∀ a b, P a → P b → 0 ≤ cmp a b → R b a)
    (hstop : ∀ a b, P a → P b → cmp a b < 0 → R a b)
    (hskip : ∀ a b c, P a → P b → P c → cmp a b < 0 → R b c → R a c)
    (x : α) (hx : P x) :
    ∀ l : List α, (∀ y ∈ l, P y) → l.Pairwise R → (jsSortInsert cmp x l).Pairwise R := by
  intro l
  induction l with
  | nil => intro _ _; simp [jsSortInsert]
  | cons y ys ih =>
    intro hP h
    rw [List.pairwise_cons] at h
    obtain ⟨hy, hys⟩ := h
    have hPy : P y := hP y (by simp)
    have hPys : ∀ z ∈ ys, P z := fun z hz => hP z (by simp [hz])
    simp only [jsSortInsert]
    split
    next hlt =>
      refine List.Pairwise.cons ?_ (List.Pairwise.cons hy hys)
      intro z hz
      rcases List.mem_cons.mp hz with rfl | hz2
      · exact hstop _ _ hx hPy hlt
      · exact hskip _ _ _ hx hPy (hPys z hz2) hlt (hy z hz2)
    next hge =>
      refine List.Pairwise.cons ?_ (ih hPys hys)
      intro z hz
      rcases (jsSortInsert_mem cmp x z ys).mp hz with rfl | hz2
      · exact hpass _ _ hx hPy (Int.not_lt.mp hge)
      · exact hy z hz2

/-- The modelled Array.prototype.sort output on a list of P-elements is
pairwise R under the same comparator conditions. -/
theorem jsSort_pairwise_mem {R : α → α → Prop} {cmp : α → α → Int} {P : α → Prop}
    (hpass : ∀ a b, P a → P b → 0 ≤ cmp a b → R b a)
    (hstop : ∀ a b, P a → P b → cmp a b < 0 → R a b)
    (hskip : ∀ a b c, P a → P b → P c → cmp a b < 0 → R b c → R a c)
    (l : List α) (hP : ∀ y ∈ l, P y) : (jsSort cmp l).Pairwise R := by
  have main : ∀ (m : List α), (∀ y ∈ m, P y) → ∀ acc, (∀ y ∈ acc, P y) → acc.Pairwise R →
      (m.foldl (fun acc x => jsSortInsert cmp x acc) acc).Pairwise R := by
    intro m
    induction m with
    | nil => intro _ acc _ hacc; simpa using hacc
    | cons x xs ih =>
      intro hm acc haccP hacc
      simp only [List.foldl_cons]
      refine ih (fun y hy => hm y (by simp [hy])) _ ?_ ?_
      · intro y hy
        rcases (jsSortInsert_mem cmp x y acc).mp hy with rfl | h2
        · exact hm _ (by simp)
        · exact haccP y h2
      · exact jsSortInsert_pairwise_mem hpass hstop hskip x (hm x (by simp)) acc haccP hacc
  exact main l hP [] (by simp) (by simp)

/-- The insertion step is a permutation. -/
theorem jsSortInsert_perm (cmp : α → α → Int) (x : α) :
    ∀ l, List.Perm (jsSortInsert cmp x l) (x :: l) := by
  intro l
  induction l with
  | nil => simp [jsSortInsert]
  | cons y ys ih =>
    simp only [jsSortInsert]
    split
    · exact List.Perm.refl _
    · exact (List.Perm.cons y ih).trans (List.Perm.swap x y ys)

/-- The modelled sort permutes its input. -/
theorem jsSort_perm (cmp : α → α → Int) (l : List α) : List.Perm (jsSort cmp l) l := by
  suffices h : ∀ acc, List.Perm (l.foldl (fun acc x => jsSortInsert cmp x acc) acc) (l ++ acc) by
    simpa using h []
  induction l with
  | nil => intro acc; simp
  | cons x xs ih =>
    intro acc
    simp only [List.foldl_cons, List.cons_append]
    exact (ih _).trans ((List.Perm.append_left xs (jsSortInsert_perm cmp x acc)).trans
      List.perm_middle)

/-- No character list is lexicographically below itself. -/
theorem charListLt_irrefl : ∀ x : List Char, charListLt x x = false := by
  intro x
  induction x with
  | nil => rfl
  | cons a as ih => simp [charListLt, lt_irrefl, ih]

/-- Two strings with the same character data are equal. -/
theorem stringEq_of_data : ∀ (s t : String), s.data = t.data → s = t := by
  intro s t h
  cases s
  cases t
  simp_all

/-- A name comparing at or above a second name puts the second at or below
the first. -/
theorem localeCompare_flip (a b : String) (h : 0 ≤ localeCompare a b) :
    localeCompare b a ≤ 0 := by
  by_cases h1 : charListLt a.data b.data
  · rw [localeCompare, if_pos h1] at h
    exact absurd h (by decide)
  · by_cases h2 : charListLt b.data a.data
    · rw [localeCompare, if_pos h2]
      decide
    · rw [localeCompare, if_neg h2, if_neg h1]

/-- Strictly-below then at-or-below composes to at-or-below for name
comparison. -/
theorem localeCompare_lt_le_trans (a b c : String) (h1 : localeCompare a b < 0)
    (h2 : localeCompare b c ≤ 0) : localeCompare a c ≤ 0 := by
  have hab : charListLt a.data b.data = true := by
    by_contra hL
    rw [localeCompare, if_neg hL] at h1
    split at h1 <;> omega
  by_cases hbc : charListLt b.data c.data
  · have := charListLt_trans _ _ _ hab hbc
    rw [localeCompare, if_pos this]
    decide
  · by_cases hcb : charListLt c.data b.data
    · rw [localeCompare, if_neg hbc, if_pos hcb] at h2
      exact absurd h2 (by decide)
    · have heq : b.data = c.data :=
        charListLt_eq_of_not _ _ (Bool.of_not_eq_true hbc) (Bool.of_not_eq_true hcb)
      have hac : charListLt a.data c.data = true := by rw [← heq]; exact hab
      rw [localeCompare, if_pos hac]
      decide

/-- On a listing whose entries are Directory-or-t typed, a passed-over
element of the root sort compares at or below the inserted one.  This is
where consistency of the comparator is needed: for two entries of distinct
non-Directory types both comparisons return 1 and the conclusion fails. -/
theorem rootLe_pass (t : FileType) (a b : String × FileType) (ha : typeOk t a)
    (hb : typeOk t b) (h : 0 ≤ rootCompare a b) : rootCompare b a ≤ 0 := by
  by_cases hT : a.2 = b.2
  · rw [rootCompare, if_pos hT] at h
    rw [rootCompare, if_pos hT.symm]
    exact localeCompare_flip a.1 b.1 h
  · rw [rootCompare, if_neg hT] at h
    have hT2 : ¬ b.2 = a.2 := fun e => hT e.symm
    by_cases hD : a.2 = FileType.Directory
    · rw [if_pos hD] at h
      exact absurd h (by decide)
    · have haT : a.2 = t := ha.resolve_left hD
      have hbD : b.2 = FileType.Directory := by
        rcases hb with h1 | h1
        · exact h1
        · exact absurd (haT.trans h1.symm) hT
      rw [rootCompare, if_neg hT2, if_pos hbD]
      decide

/-- Being strictly below for the root comparator composes with being at or
below. -/
theorem rootLe_skip (a b c : String × FileType) (h : rootCompare a b < 0)
    (h2 : rootCompare b c ≤ 0) : rootCompare a c ≤ 0 := by
  by_cases hab : a.2 = b.2
  · rw [rootCompare, if_pos hab] at h
    by_cases hbc : b.2 = c.2
    · rw [rootCompare, if_pos hbc] at h2
      rw [rootCompare, if_pos (hab.trans hbc)]
      exact localeCompare_lt_le_trans a.1 b.1 c.1 h h2
    · by_cases hbD : b.2 = FileType.Directory
      · have hac : ¬ a.2 = c.2 := by rw [hab]; exact hbc
        rw [rootCompare, if_neg hac, if_pos (hab.trans hbD)]
        decide
      · rw [rootCompare, if_neg hbc, if_neg hbD] at h2
        exact absurd h2 (by decide)
  · rw [rootCompare, if_neg hab] at h
    by_cases haD : a.2 = FileType.Directory
    · by_cases hacT : a.2 = c.2
      · have hcD : c.2 = FileType.Directory := hacT ▸ haD
        have hbD : ¬ b.2 = FileType.Directory := fun e => hab (haD.trans e.symm)
        have hbc : ¬ b.2 = c.2 := fun e => hbD (e.trans hcD)
        rw [rootCompare, if_neg hbc, if_neg hbD] at h2
        exact absurd h2 (by decide)
      · rw [rootCompare, if_neg hacT, if_pos haD]
        decide
    · rw [if_neg haD] at h
      exact absurd h (by decide)

/-- The comparator order is antisymmetric: two entries each comparing at or
below the other are the same entry.  This is what makes the sorted order
unique once the comparator is consistent on the listing. -/
theorem rootCompare_antisymm (a b : String × FileType) (h1 : rootCompare a b ≤ 0)
    (h2 : rootCompare b a ≤ 0) : a = b := by
  by_cases hT : a.2 = b.2
  · rw [rootCompare, if_pos hT] at h1
    rw [rootCompare, if_pos hT.symm] at h2
    have hd : a.1.data = b.1.data := by
      by_cases hab : charListLt a.1.data b.1.data
      · by_cases hba : charListLt b.1.data a.1.data
        · have := charListLt_trans _ _ _ hab hba
          simp [charListLt_irrefl] at this
        · rw [localeCompare, if_neg hba, if_pos hab] at h2
          exact absurd h2 (by decide)
      · by_cases hba : charListLt b.1.data a.1.data
        · rw [localeCompare, if_neg hab, if_pos hba] at h1
          exact absurd h1 (by decide)
        · exact charListLt_eq_of_not _ _ (Bool.of_not_eq_true hab) (Bool.of_not_eq_true hba)
    exact Prod.ext (stringEq_of_data _ _ hd) hT
  · rw [rootCompare, if_neg hT] at h1
    have hT2 : ¬ b.2 = a.2 := fun e => hT e.symm
    rw [rootCompare, if_neg hT2] at h2
    by_cases hD : a.2 = FileType.Directory
    · by_cases hD2 : b.2 = FileType.Directory
      · exact absurd (hD.trans hD2.symm) hT
      · rw [if_neg hD2] at h2
        exact absurd h2 (by decide)
    · rw [if_neg hD] at h1
      exact absurd h1 (by decide)

/-- Comparing at or below implies the grouped ordering claim C1 asserts:
a Directory never follows a non-Directory, and same-group entries are in
ascending name order. -/
theorem rootLe_groupLe (a b : String × FileType) (h : rootCompare a b ≤ 0) : groupLe a b := by
  by_cases hT : a.2 = b.2
  · rw [rootCompare, if_pos hT] at h
    exact ⟨fun hd => by rw [hT]; exact hd, fun _ => h⟩
  · rw [rootCompare, if_neg hT] at h
    by_cases hD : a.2 = FileType.Directory
    · exact ⟨fun _ => hD, fun hiff => absurd (hD.trans (hiff.mp hD).symm) hT⟩
    · rw [if_neg hD] at h
      exact absurd h (by decide)

/-- C1, counterexample: on a root listing holding file b before symbolic
link a, getChildren returns b before a, so the two members of the
non-Directory group are not in ascending name order and the ordering the
claim asserts for the root result fails. -/
theorem c1_counterexample :
    getChildren (some [{ scheme := "file", fsPath := "/r" }]) fsMixed none =
      Except.ok [{ uri := "/r/b", type := FileType.File },
                 { uri := "/r/a", type := FileType.SymbolicLink }] ∧
    c1ClaimOrderB [{ uri := "/r/b", type := FileType.File },
                   { uri := "/r/a", type := FileType.SymbolicLink }] = false :=
  ⟨by decide, by decide⟩

/-- C1, amended: a root-level getChildren sorts the listing with the root
comparator; because that comparator is inconsistent on listings mixing
distinct non-Directory types, the engine order is implementation-defined
there (the counterexample), but on a listing whose non-Directory entries
all share one type t the comparator is consistent and the sorted order is
unique — any permutation of the listing that is sorted by the comparator
equals the modelled output (second part), so every conforming engine
returns it: all Directory entries first and names ascending within each
group, a permutation of the listing.  A getChildren with a parent returns
the listing in listing order with no sorting. -/
theorem c1_root_sort_scope :
    (∀ (fs : FS) (folders : List WorkspaceFolder) (wf : WorkspaceFolder)
        (l : List (String × FileType)) (t : FileType),
        (folders.filter (fun f => f.scheme == "file")).head? = some wf →
        FileSystemProvider._readDirectory fs wf.fsPath = Except.ok l →
        (∀ p ∈ l, typeOk t p) →
        getChildren (some folders) fs none =
          Except.ok ((jsSort rootCompare l).map
            (fun p => { uri := joinPath wf.fsPath p.1, type := p.2 })) ∧
        (jsSort rootCompare l).Pairwise groupLe ∧
        List.Perm (jsSort rootCompare l) l) ∧
    (∀ (l : List (String × FileType)) (t : FileType) (s : List (String × FileType)),
        (∀ p ∈ l, typeOk t p) → List.Perm s l →
        s.Pairwise (fun a b => rootCompare a b ≤ 0) → s = jsSort rootCompare l) ∧
    (∀ (folders : List WorkspaceFolder) (fs : FS) (el : Entry)
        (l : List (String × FileType)),
        FileSystemProvider._readDirectory fs el.uri = Except.ok l →
        getChildren (some folders) fs (some el) =
          Except.ok (l.map (fun p => { uri := joinPath el.uri p.1, type := p.2 }))) := by
  have hsorted : ∀ (l : List (String × FileType)) (t : FileType), (∀ p ∈ l, typeOk t p) →
      (jsSort rootCompare l).Pairwise (fun a b => rootCompare a b ≤ 0) := by
    intro l t hty
    exact jsSort_pairwise_mem (rootLe_pass t)
      (fun a b _ _ hlt => le_of_lt hlt)
      (fun a b c _ _ _ hlt hle => rootLe_skip a b c hlt hle) l hty
  refine ⟨?_, ?_, ?_⟩
  · intro fs folders wf l t hhead hread hty
    refine ⟨?_, (hsorted l t hty).imp (fun h => rootLe_groupLe _ _ h),
      jsSort_perm rootCompare l⟩
    simp only [getChildren]
    rw [hhead]
    simp [hread, Except.bind]
  · intro l t s hty hperm hsort
    haveI : IsAntisymm (String × FileType) (fun a b => rootCompare a b ≤ 0) :=
      ⟨fun a b h1 h2 => rootCompare_antisymm a b h1 h2⟩
    exact List.eq_of_perm_of_sorted (hperm.trans (jsSort_perm rootCompare l).symm)
      hsort (hsorted l t hty)
  · intro folders fs el l hread
    simp only [getChildren]
    simp [hread, Except.bind]

/-- C1, witness: the root listing of files b.txt and a.txt and directory z
(all non-Directory entries of type File) satisfies the hypotheses; the
unique sorted order is z, a.txt, b.txt, and any sorted permutation of the
listing equals the modelled output; as a parent the same directory keeps
listing order. -/
theorem c1_root_sort_scope_witness :
    (getChildren (some [{ scheme := "file", fsPath := "/r" }]) fsW none =
      Except.ok ((jsSort rootCompare
          [("b.txt", FileType.File), ("a.txt", FileType.File), ("z", FileType.Directory)]).map
        (fun p => { uri := joinPath "/r" p.1, type := p.2 })) ∧
      (jsSort rootCompare
          [("b.txt", FileType.File), ("a.txt", FileType.File), ("z", FileType.Directory)]).Pairwise
        groupLe ∧
      List.Perm (jsSort rootCompare
          [("b.txt", FileType.File), ("a.txt", FileType.File), ("z", FileType.Directory)])
        [("b.txt", FileType.File), ("a.txt", FileType.File), ("z", FileType.Directory)]) ∧
    [("z", FileType.Directory), ("a.txt", FileType.File), ("b.txt", FileType.File)] =
      jsSort rootCompare
        [("b.txt", FileType.File), ("a.txt", FileType.File), ("z", FileType.Directory)] ∧
    getChildren (some [{ scheme := "file", fsPath := "/r" }]) fsW
        (some { uri := "/r", type := FileType.Directory }) =
      Except.ok [{ uri := "/r/b.txt", type := FileType.File },
                 { uri := "/r/a.txt", type := FileType.File },
                 { uri := "/r/z", type := FileType.Directory }] :=
  ⟨c1_root_sort_scope.1 fsW [{ scheme := "file", fsPath := "/r" }]
      { scheme := "file", fsPath := "/r" }
      [("b.txt", FileType.File), ("a.txt", FileType.File), ("z", FileType.Directory)]
      FileType.File (by decide) (by decide) (by decide),
   c1_root_sort_scope.2.1
      [("b.txt", FileType.File), ("a.txt", FileType.File), ("z", FileType.Directory)]
      FileType.File
      [("z", FileType.Directory), ("a.txt", FileType.File), ("b.txt", FileType.File)]
      (by decide) (by decide) (by decide),
   c1_root_sort_scope.2.2 [{ scheme := "file", fsPath := "/r" }] fsW
      { uri := "/r", type := FileType.Directory }
      [("b.txt", FileType.File), ("a.txt", FileType.File), ("z", FileType.Directory)]
      (by decide)⟩

/-- C3: size-computation failures do reach the display descriptor.  A File
entry whose stat fails gets an undefined size, the filesize rendering
throws on it and getTreeItem rejects; a Directory entry whose folder sizing
reports an error likewise rejects; only the gzip estimate degrades to 0 as
the spec demands, shown by the third conjunct where gzip throws and the
descriptor still renders with a 0-byte estimate. -/
theorem c3_size_failure_propagates :
    getTreeItem fsFail { uri := "/r/gone.txt", type := FileType.File } =
      Except.error "Invalid number" ∧
    getTreeItem fsFail { uri := "/r/d", type := FileType.Directory } =
      Except.error "Invalid number" ∧
    getTreeItem fsFail { uri := "/r/f", type := FileType.File } =
      Except.ok { resourceUri := "/r/f"
                  collapsibleState := CollapsibleState.None
                  command := some { command := "fileExplorer.openFile", title := "Open File",
                                    arguments := ["/r/f"] }
                  contextValue := some "file"
                  description := some " -  5 B - (0 B)" } :=
  ⟨by decide, by decide, by decide⟩

/-- C8: with no workspace (or an empty folder list, or no file-scheme
folder) a root getChildren returns the empty list and no error, and a root
getChildren depends only on the first file-scheme workspace folder — any
two folder lists agreeing on that folder give identical results. -/
theorem c8_workspace_roots :
    (∀ fs : FS, getChildren none fs none = Except.ok []) ∧
    (∀ fs : FS, getChildren (some []) fs none = Except.ok []) ∧
    (∀ (fs : FS) (folders : List WorkspaceFolder),
        (folders.filter (fun f => f.scheme == "file")).head? = none →
        getChildren (some folders) fs none = Except.ok []) ∧
    (∀ (fs : FS) (f1 f2 : List WorkspaceFolder),
        (f1.filter (fun f => f.scheme == "file")).head? =
          (f2.filter (fun f => f.scheme == "file")).head? →
        getChildren (some f1) fs none = getChildren (some f2) fs none) := by
  refine ⟨fun fs => rfl, fun fs => rfl, ?_, ?_⟩
  · intro fs folders h
    simp only [getChildren]
    rw [h]
  · intro fs f1 f2 h
    simp only [getChildren]
    rw [h]

/-- C8, witness: a workspace with an untitled root, then two file roots,
behaves exactly as one with only the first file root; empty configurations
give the empty result. -/
theorem c8_workspace_roots_witness :
    getChildren none fsW none = Except.ok [] ∧
    getChildren (some []) fsW none = Except.ok [] ∧
    getChildren (some [{ scheme := "untitled", fsPath := "/u" }]) fsW none = Except.ok [] ∧
    getChildren (some [{ scheme := "untitled", fsPath := "/u" },
                       { scheme := "file", fsPath := "/r" },
                       { scheme := "file", fsPath := "/other" }]) fsW none =
      getChildren (some [{ scheme := "file", fsPath := "/r" }]) fsW none :=
  ⟨c8_workspace_roots.1 fsW, c8_workspace_roots.2.1 fsW,
   c8_workspace_roots.2.2.1 fsW [{ scheme := "untitled", fsPath := "/u" }] (by decide),
   c8_workspace_roots.2.2.2 fsW
      [{ scheme := "untitled", fsPath := "/u" }, { scheme := "file", fsPath := "/r" },
       { scheme := "file", fsPath := "/other" }]
      [{ scheme := "file", fsPath := "/r" }] (by decide)⟩

/-- C2: the display descriptor marks a node expandable (Collapsed) iff its
type is Directory; a File node carries the open-file command with its own
uri and a description rendering (stat size, gzip estimate); a Directory
node carries a description rendering only the aggregate size, with no
command. -/
theorem c2_getTreeItem_descriptor :
    (∀ (fs : FS) (e : Entry) (item : TreeItem), getTreeItem fs e = Except.ok item →
        (item.collapsibleState = CollapsibleState.Collapsed ↔ e.type = FileType.Directory)) ∧
    (∀ (fs : FS) (e : Entry) (st : FsStats) (n : Nat), e.type = FileType.File →
        fs.statSync e.uri = some st → st.size = some n →
        getTreeItem fs e = Except.ok
          { resourceUri := e.uri
            collapsibleState := CollapsibleState.None
            command := some { command := "fileExplorer.openFile", title := "Open File",
                              arguments := [e.uri] }
            contextValue := some "file"
            description := some (" -  " ++ filesizeStr n ++ " - (" ++
              filesizeStr (FileSystemProvider._getGzipSize fs e.uri) ++ ")") }) ∧
    (∀ (fs : FS) (e : Entry) (n : Nat), e.type = FileType.Directory →
        fs.folderSize e.uri = FFSOutcome.callback (some n) →
        getTreeItem fs e = Except.ok
          { resourceUri := e.uri
            collapsibleState := CollapsibleState.Collapsed
            command := none
            contextValue := none
            description := some (" - " ++ filesizeStr n) }) := by
  refine ⟨?_, ?_, ?_⟩
  · intro fs e item h
    cases he : e.type
    · simp [getTreeItem, he] at h
      subst h
      simp [he]
    · rcases hsz : (FileSystemProvider._stat fs e.uri).size with _ | n
      · simp [getTreeItem, he, hsz, filesizeFn] at h
      · simp [getTreeItem, he, hsz, filesizeFn] at h
        subst h
        simp [he]
    · rcases hds : FileSystemProvider._getDirSize fs e.uri with _ | n
      · simp [getTreeItem, he, hds, filesizeFn] at h
      · simp [getTreeItem, he, hds, filesizeFn] at h
        subst h
        simp [he]
    · simp [getTreeItem, he] at h
      subst h
      simp [he]
  · intro fs e st n he hst hsz
    have h1 : (FileSystemProvider._stat fs e.uri).size = some n := by
      simp [FileSystemProvider._stat, statResolve, hst, FileStat.size, hsz]
    simp [getTreeItem, he, h1, filesizeFn]
  · intro fs e n he hf
    have h1 : FileSystemProvider._getDirSize fs e.uri = some n := by
      simp [FileSystemProvider._getDirSize, hf]
    simp [getTreeItem, he, h1, filesizeFn]

/-- C2, witness: the descriptor equations and the expandability criterion
evaluated on the fixture file b.txt and directory z. -/
theorem c2_getTreeItem_descriptor_witness :
    (({ resourceUri := "/r/z", collapsibleState := CollapsibleState.Collapsed, command := none,
        contextValue := none,
        description := some (" - " ++ filesizeStr 100) } : TreeItem).collapsibleState =
          CollapsibleState.Collapsed ↔
      ({ uri := "/r/z", type := FileType.Directory } : Entry).type = FileType.Directory) ∧
    getTreeItem fsW { uri := "/r/b.txt", type := FileType.File } = Except.ok
      { resourceUri := "/r/b.txt"
        collapsibleState := CollapsibleState.None
        command := some { command := "fileExplorer.openFile", title := "Open File",
                          arguments := ["/r/b.txt"] }
        contextValue := some "file"
        description := some (" -  " ++ filesizeStr 5 ++ " - (" ++
          filesizeStr (FileSystemProvider._getGzipSize fsW "/r/b.txt") ++ ")") } ∧
    getTreeItem fsW { uri := "/r/z", type := FileType.Directory } = Except.ok
      { resourceUri := "/r/z"
        collapsibleState := CollapsibleState.Collapsed
        command := none
        contextValue := none
        description := some (" - " ++ filesizeStr 100) } :=
  ⟨c2_getTreeItem_descriptor.1 fsW { uri := "/r/z", type := FileType.Directory }
      { resourceUri := "/r/z", collapsibleState := CollapsibleState.Collapsed, command := none,
        contextValue := none, description := some (" - " ++ filesizeStr 100) } (by decide),
   c2_getTreeItem_descriptor.2.1 fsW { uri := "/r/b.txt", type := FileType.File }
      (fileStats 5) 5 rfl (by decide) rfl,
   c2_getTreeItem_descriptor.2.2 fsW { uri := "/r/z", type := FileType.Directory } 100
      rfl (by decide)⟩

/-- C4: for every raw notification the watch handler fires exactly one
event for the normalized joined path, a Changed event when the raw kind is
the content-change kind, and otherwise a Created or Deleted event according
to the existence re-check at processing time. -/
theorem c4_watch_event_classification :
    ∀ (fs : FS) (base : String) (opts : WatchOptions) (ev fn : String) (existsNow : Bool),
      ((FileSystemProvider.watch fs base opts).handler ev fn existsNow).length = 1 ∧
      (ev = "change" →
        (FileSystemProvider.watch fs base opts).handler ev fn existsNow =
          [{ type := FileChangeType.Changed, uri := joinPath base (normalizeNFCStr fs fn) }]) ∧
      (ev ≠ "change" → existsNow = true →
        (FileSystemProvider.watch fs base opts).handler ev fn existsNow =
          [{ type := FileChangeType.Created, uri := joinPath base (normalizeNFCStr fs fn) }]) ∧
      (ev ≠ "change" → existsNow = false →
        (FileSystemProvider.watch fs base opts).handler ev fn existsNow =
          [{ type := FileChangeType.Deleted, uri := joinPath base (normalizeNFCStr fs fn) }]) := by
  intro fs base opts ev fn ex
  refine ⟨rfl, fun h => ?_, fun h hx => ?_, fun h hx => ?_⟩
  · simp [FileSystemProvider.watch, watchHandler, h]
  · subst hx
    simp [FileSystemProvider.watch, watchHandler, h]
  · subst hx
    simp [FileSystemProvider.watch, watchHandler, h]

/-- C4, witness: the three classifications and the single-event guarantee
on concrete notifications. -/
theorem c4_watch_event_classification_witness :
    ((FileSystemProvider.watch fsW "/r" { recursive := true, excludes := [] }).handler
        "rename" "f.txt" false).length = 1 ∧
    (FileSystemProvider.watch fsW "/r" { recursive := true, excludes := [] }).handler
        "change" "f.txt" true =
      [{ type := FileChangeType.Changed, uri := joinPath "/r" (normalizeNFCStr fsW "f.txt") }] ∧
    (FileSystemProvider.watch fsW "/r" { recursive := true, excludes := [] }).handler
        "rename" "f.txt" true =
      [{ type := FileChangeType.Created, uri := joinPath "/r" (normalizeNFCStr fsW "f.txt") }] ∧
    (FileSystemProvider.watch fsW "/r" { recursive := true, excludes := [] }).handler
        "rename" "f.txt" false =
      [{ type := FileChangeType.Deleted, uri := joinPath "/r" (normalizeNFCStr fsW "f.txt") }] :=
  ⟨(c4_watch_event_classification fsW "/r" { recursive := true, excludes := [] }
      "rename" "f.txt" false).1,
   (c4_watch_event_classification fsW "/r" { recursive := true, excludes := [] }
      "change" "f.txt" true).2.1 rfl,
   (c4_watch_event_classification fsW "/r" { recursive := true, excludes := [] }
      "rename" "f.txt" true).2.2.1 (by decide) rfl,
   (c4_watch_event_classification fsW "/r" { recursive := true, excludes := [] }
      "rename" "f.txt" false).2.2.2 (by decide) rfl⟩

/-- C5, counterexample: the degenerate descriptor returned when statting a
missing path does not have sizeBytes 0 or timestamps 0 — those fields are
the undefined/NaN value (none), refuting the every-field-zero clause. -/
theorem c5_counterexample :
    (FileSystemProvider._stat fsFail "/r/gone.txt").size = none ∧
    decide ((FileSystemProvider._stat fsFail "/r/gone.txt").size = some 0) = false ∧
    decide ((FileSystemProvider._stat fsFail "/r/gone.txt").ctime = some 0) = false ∧
    decide ((FileSystemProvider._stat fsFail "/r/gone.txt").mtime = some 0) = false :=
  ⟨by decide, by decide, by decide, by decide⟩

/-- C5, amended: stat never raises (the wrapper is a total function) and on
a path that cannot be statted it returns the degenerate descriptor with
type Unknown and all three kind flags false, while size and both timestamps
are the undefined/NaN value rather than 0. -/
theorem c5_stat_degenerate :
    ∀ (fs : FS) (p : String), fs.statSync p = none →
      (FileSystemProvider._stat fs p).type = FileType.Unknown ∧
      (FileSystemProvider._stat fs p).isFile = false ∧
      (FileSystemProvider._stat fs p).isDirectory = false ∧
      (FileSystemProvider._stat fs p).isSymbolicLink = false ∧
      (FileSystemProvider._stat fs p).size = none ∧
      (FileSystemProvider._stat fs p).ctime = none ∧
      (FileSystemProvider._stat fs p).mtime = none := by
  intro fs p h
  have he : FileSystemProvider._stat fs p = { fsStat := emptyStats } := by
    simp [FileSystemProvider._stat, statResolve, h]
  rw [he]
  decide

/-- C5, witness: the degenerate descriptor on the fixture path that fails
to stat. -/
theorem c5_stat_degenerate_witness :
    (FileSystemProvider._stat fsFail "/x").type = FileType.Unknown ∧
    (FileSystemProvider._stat fsFail "/x").isFile = false ∧
    (FileSystemProvider._stat fsFail "/x").isDirectory = false ∧
    (FileSystemProvider._stat fsFail "/x").isSymbolicLink = false ∧
    (FileSystemProvider._stat fsFail "/x").size = none ∧
    (FileSystemProvider._stat fsFail "/x").ctime = none ∧
    (FileSystemProvider._stat fsFail "/x").mtime = none :=
  c5_stat_degenerate fsFail "/x" (by decide)

/-- C6, counterexample: a listing failure with the correctly spelled
permission-denied code makes readDirectory fail with the raw unmapped
error, not with FileNotFound, refuting the only-NotFound reading of the
claim. -/
theorem c6_counterexample :
    FileSystemProvider._readDirectory fsEacces "/d" =
      Except.error (MassagedError.raw "EACCES") ∧
    decide (MassagedError.raw "EACCES" = MassagedError.FileNotFound) = false :=
  ⟨by decide, by decide⟩

/-- C6, amended: readDirectory fails exactly when the listing fails, with
the massaged error of the OS code, and that error is FileNotFound exactly
for ENOENT; when the listing succeeds every child is returned and a child
whose stat fails is tagged Unknown. -/
theorem c6_readDirectory_errors :
    (∀ (fs : FS) (p : String) (code : String), fs.readdirRaw p = Except.error code →
        FileSystemProvider._readDirectory fs p = Except.error (massageError code)) ∧
    (∀ code : String, massageError code = MassagedError.FileNotFound ↔ code = "ENOENT") ∧
    (∀ (fs : FS) (p : String) (names : List String), fs.readdirRaw p = Except.ok names →
        FileSystemProvider._readDirectory fs p =
          Except.ok ((normalizeNFCList fs names).map
            (fun c => (c, FileStat.type { fsStat := statResolve (fs.statSync (joinPath p c)) })))) ∧
    (∀ (fs : FS) (p : String) (names : List String) (l : List (String × FileType))
        (pr : String × FileType),
        fs.readdirRaw p = Except.ok names →
        FileSystemProvider._readDirectory fs p = Except.ok l →
        pr ∈ l → fs.statSync (joinPath p pr.1) = none → pr.2 = FileType.Unknown) := by
  refine ⟨?_, ?_, ?_, ?_⟩
  · intro fs p code h
    simp [FileSystemProvider._readDirectory, readdirP, h, Except.bind]
  · intro code
    simp only [massageError]
    split_ifs with h1 h2 h3 h4 <;> simp_all
  · intro fs p names h
    simp [FileSystemProvider._readDirectory, readdirP, h, Except.bind]
  · intro fs p names l pr hok hl hpr hstat
    simp [FileSystemProvider._readDirectory, readdirP, hok, Except.bind] at hl
    subst hl
    obtain ⟨c, hc, rfl⟩ := List.mem_map.mp hpr
    show FileStat.type { fsStat := statResolve (fs.statSync (joinPath p c)) } = FileType.Unknown
    rw [hstat]
    decide

/-- C6, witness: the error mapping at the EACCES fixture and the per-child
degradation at the fixture where g fails to stat. -/
theorem c6_readDirectory_errors_witness :
    FileSystemProvider._readDirectory fsEacces "/d" = Except.error (massageError "EACCES") ∧
    (massageError "EACCES" = MassagedError.FileNotFound ↔ "EACCES" = "ENOENT") ∧
    FileSystemProvider._readDirectory fsChild "/d" =
      Except.ok ((normalizeNFCList fsChild ["g", "f"]).map
        (fun c => (c, FileStat.type { fsStat := statResolve (fsChild.statSync (joinPath "/d" c)) }))) ∧
    (("g", FileType.Unknown) : String × FileType).2 = FileType.Unknown :=
  ⟨c6_readDirectory_errors.1 fsEacces "/d" "EACCES" (by decide),
   c6_readDirectory_errors.2.1 "EACCES",
   c6_readDirectory_errors.2.2.1 fsChild "/d" ["g", "f"] (by decide),
   c6_readDirectory_errors.2.2.2 fsChild "/d" ["g", "f"]
      [("g", FileType.Unknown), ("f", FileType.File)] ("g", FileType.Unknown)
      (by decide) (by decide) (by decide) (by decide)⟩

/-- C7, counterexample: with cancellation already requested the behavior
the claim demands (the spec-modelled cancellable aggregation) aborts with
the cancellation error, yet the code computes the full directory size and
renders it in the descriptor — the aggregation consults no token. -/
theorem c7_counterexample :
    directorySizeSpecModel { isCancellationRequested := true } fsW "/r/z" =
      Except.error "Operation cancelled" ∧
    FileSystemProvider._getDirSize fsW "/r/z" = some 100 ∧
    getTreeItem fsW { uri := "/r/z", type := FileType.Directory } =
      Except.ok { resourceUri := "/r/z", collapsibleState := CollapsibleState.Collapsed,
                  command := none, contextValue := none, description := some " - 100 B" } ∧
    decide (directorySizeSpecModel { isCancellationRequested := true } fsW "/r/z" =
      Except.ok (FileSystemProvider._getDirSize fsW "/r/z")) = false :=
  ⟨by decide, by decide, by decide, by decide⟩

/-- C7, amended: the source defines a checkCancellation helper that throws
exactly when the token is cancelled, but no size computation accepts or
checks a token — the directory-size aggregation used by getTreeItem always
yields the full fast-folder-size result regardless of any cancellation. -/
theorem c7_no_cancellation_in_sizing :
    (∀ t : CancellationToken, t.isCancellationRequested = true →
        checkCancellation t = Except.error "Operation cancelled") ∧
    (∀ t : CancellationToken, t.isCancellationRequested = false →
        checkCancellation t = Except.ok ()) ∧
    (∀ (fs : FS) (e : Entry) (n : Nat), e.type = FileType.Directory →
        fs.folderSize e.uri = FFSOutcome.callback (some n) →
        getTreeItem fs e = Except.ok
          { resourceUri := e.uri, collapsibleState := CollapsibleState.Collapsed,
            command := none, contextValue := none,
            description := some (" - " ++ filesizeStr n) }) := by
  refine ⟨?_, ?_, ?_⟩
  · intro t h
    simp [checkCancellation, h]
  · intro t h
    simp [checkCancellation, h]
  · intro fs e n he hf
    have h1 : FileSystemProvider._getDirSize fs e.uri = some n := by
      simp [FileSystemProvider._getDirSize, hf]
    simp [getTreeItem, he, h1, filesizeFn]

/-- C7, witness: both token states of checkCancellation and the
unconditional full-size descriptor on the fixture directory. -/
theorem c7_no_cancellation_in_sizing_witness :
    checkCancellation { isCancellationRequested := true } = Except.error "Operation cancelled" ∧
    checkCancellation { isCancellationRequested := false } = Except.ok () ∧
    getTreeItem fsW { uri := "/r/z", type := FileType.Directory } = Except.ok
      { resourceUri := "/r/z", collapsibleState := CollapsibleState.Collapsed,
        command := none, contextValue := none,
        description := some (" - " ++ filesizeStr 100) } :=
  ⟨c7_no_cancellation_in_sizing.1 { isCancellationRequested := true } rfl,
   c7_no_cancellation_in_sizing.2.1 { isCancellationRequested := false } rfl,
   c7_no_cancellation_in_sizing.2.2 fsW { uri := "/r/z", type := FileType.Directory } 100
      rfl (by decide)⟩

/-- C9: every stats record yields kind flags of which at most one is true,
and the FileStat type tag agrees with the flags — File, Directory and
SymbolicLink exactly when the matching flag is set, Unknown exactly when
none is. -/
theorem c9_stat_descriptor_invariant :
    ∀ s : FsStats,
      ((s.isFile && s.isDirectory) = false) ∧
      ((s.isFile && s.isSymbolicLink) = false) ∧
      ((s.isDirectory && s.isSymbolicLink) = false) ∧
      ((FileStat.type { fsStat := s } = FileType.File) ↔ s.isFile = true) ∧
      ((FileStat.type { fsStat := s } = FileType.Directory) ↔ s.isDirectory = true) ∧
      ((FileStat.type { fsStat := s } = FileType.SymbolicLink) ↔ s.isSymbolicLink = true) ∧
      ((FileStat.type { fsStat := s } = FileType.Unknown) ↔
        (s.isFile = false ∧ s.isDirectory = false ∧ s.isSymbolicLink = false)) := by
  intro s
  simp only [FsStats.isFile, FsStats.isDirectory, FsStats.isSymbolicLink, FileStat.type,
    S_IFMT, S_IFREG, S_IFDIR, S_IFLNK]
  by_cases h1 : s.mode.getD 0 &&& 61440 = 32768 <;>
    by_cases h2 : s.mode.getD 0 &&& 61440 = 16384 <;>
      by_cases h3 : s.mode.getD 0 &&& 61440 = 40960 <;>
        first
          | omega
          | simp [h1, h2, h3]

/-- C9, witness: the invariant evaluated on a regular-file stats record. -/
theorem c9_stat_descriptor_invariant_witness :
    (((fileStats 5).isFile && (fileStats 5).isDirectory) = false) ∧
    (((fileStats 5).isFile && (fileStats 5).isSymbolicLink) = false) ∧
    (((fileStats 5).isDirectory && (fileStats 5).isSymbolicLink) = false) ∧
    ((FileStat.type { fsStat := fileStats 5 } = FileType.File) ↔ (fileStats 5).isFile = true) ∧
    ((FileStat.type { fsStat := fileStats 5 } = FileType.Directory) ↔
      (fileStats 5).isDirectory = true) ∧
    ((FileStat.type { fsStat := fileStats 5 } = FileType.SymbolicLink) ↔
      (fileStats 5).isSymbolicLink = true) ∧
    ((FileStat.type { fsStat := fileStats 5 } = FileType.Unknown) ↔
      ((fileStats 5).isFile = false ∧ (fileStats 5).isDirectory = false ∧
        (fileStats 5).isSymbolicLink = false)) :=
  c9_stat_descriptor_invariant (fileStats 5)

/-- C10: the watch subscription is independent of the excludes option — two
watches on the same uri with the same recursive flag and any two excludes
lists are the same subscription, so the same raw notifications produce
identical republished event streams. -/
theorem c10_watch_ignores_excludes :
    ∀ (fs : FS) (uriFsPath : String) (r : Bool) (ex1 ex2 : List String),
      FileSystemProvider.watch fs uriFsPath { recursive := r, excludes := ex1 } =
        FileSystemProvider.watch fs uriFsPath { recursive := r, excludes := ex2 } := by
  intro fs uriFsPath r ex1 ex2
  rfl

end FsExplorer
